import Mathlib

/-!
Verification of the YAML scenario generator (selector mapper, action mapper,
scenario emitter) against its natural-language specification.

The development shallowly embeds the TypeScript sources:
  - the revised generator (the unnamed source file), and
  - the earlier generator variant under packages/playwright-core.

External collaborators that live outside the excerpt (the selector-grammar
parser, the attribute-body parser, the chain re-stringifier and the host URL
parser and regex engine) are threaded through as explicit function parameters
(an `Ext` bundle); concrete instances modelled from the specification are
provided for evaluating concrete inputs.

Host-language (JavaScript) string and JSON primitives are embedded as
executable Lean functions over character lists.
-/

namespace Genfest

/-! ## JavaScript string primitives, embedded over character lists -/

/-- Embedding of the characters accepted by the JS `\s`-style whitespace used
by `trim` and `parseInt` (ASCII subset; exotic unicode spaces are out of
scope for the recorded inputs). -/
def isJsWS (c : Char) : Bool :=
  [' ', '\t', '\n', '\r', '\x0b', '\x0c'].contains c

/-- Embedding of `String.prototype.startsWith`. -/
def jsStartsWith (s p : String) : Bool :=
  p.data.isPrefixOf s.data

/-- Embedding of `String.prototype.endsWith`. -/
def jsEndsWith (s p : String) : Bool :=
  p.data.reverse.isPrefixOf s.data.reverse

/-- Embedding of `s.slice(0, -1)`: the string without its final character. -/
def jsDropLast (s : String) : String :=
  ⟨s.data.dropLast⟩

/-- Embedding of `s.at(-1)`: the final character, when any. -/
def jsLastChar (s : String) : Option Char :=
  s.data.getLast?

/-- Embedding of `String.prototype.toLowerCase` (ASCII case mapping). -/
def jsToLower (s : String) : String :=
  ⟨s.data.map Char.toLower⟩

/-- Embedding of `String.prototype.trim`. -/
def jsTrim (s : String) : String :=
  ⟨((s.data.dropWhile isJsWS).reverse.dropWhile isJsWS).reverse⟩

/-- Substring test: embedding of `RegExp.prototype.test` for a regex that is
a plain literal word (used via `secretTest` below). -/
def containsSub (s pat : String) : Bool :=
  (List.range (s.data.length + 1)).any fun i => pat.data.isPrefixOf (s.data.drop i)

/-- Digits of a decimal numeral to a natural number. -/
def digitsToNat (ds : List Char) : Nat :=
  ds.foldl (fun total d => 10 * total + (d.toNat - 48)) 0

/-- Embedding of `parseInt(s, 10)`: trims leading whitespace, accepts an
optional sign and the longest digit prefix; `none` models `NaN`. -/
def parseIntJS (s : String) : Option Int :=
  let cs := s.data.dropWhile isJsWS
  let signAndRest : Int × List Char :=
    match cs with
    | '-' :: r => (-1, r)
    | '+' :: r => (1, r)
    | r => (1, r)
  let digits := signAndRest.2.takeWhile fun c => c.isDigit
  if digits.isEmpty then none
  else some (signAndRest.1 * (digitsToNat digits : Int))

/-- Embedding of `Number(s)` restricted to integral results: empty and
whitespace-only strings coerce to `0`; otherwise an optional sign followed by
digits only. Non-integral numerals are outside the recorded value space and
map to `none` (NaN). -/
def jsNumberInt (s : String) : Option Int :=
  let cs := (jsTrim s).data
  if cs.isEmpty then some 0
  else
    let signAndRest : Int × List Char :=
      match cs with
      | '-' :: r => (-1, r)
      | '+' :: r => (1, r)
      | r => (1, r)
    if signAndRest.2 ≠ [] && signAndRest.2.all (fun c => c.isDigit) then
      some (signAndRest.1 * (digitsToNat signAndRest.2 : Int))
    else none

/-! ## JSON string decoding (embedding of `JSON.parse` on string literals) -/

/-- JSON whitespace allowed around a top-level token. -/
def isJsonWS (c : Char) : Bool :=
  [' ', '\t', '\n', '\r'].contains c

/-- Hexadecimal digit value, read off as the position in the digit
alphabet. -/
def hexVal (c : Char) : Option Nat :=
  "0123456789abcdef".data.findIdx? fun d => d == c.toLower

/-- The JSON single-character escapes as a lookup table. -/
def jsonEscapeMap : List (Char × Char) :=
  [('"', '"'), ('\\', '\\'), ('/', '/'), ('b', '\x08'), ('f', '\x0c'),
   ('n', '\n'), ('r', '\r'), ('t', '\t')]

/-- Four hexadecimal digits folded into a code point, with the remaining
input. -/
def hexQuad (cs : List Char) : Option (Nat × List Char) :=
  match cs with
  | a :: b :: c :: d :: tl =>
    (List.foldlM (fun acc ch => (hexVal ch).map fun v => acc * 16 + v) 0 [a, b, c, d]).map
      fun n => (n, tl)
  | _ => none

/-- Fuelled scanner for the body of a JSON string literal (after the opening
quote): returns the decoded characters and the input remaining after the
closing quote. -/
def jsonStrLoop : Nat → List Char → Option (List Char × List Char)
  | 0, _ => none
  | _ + 1, [] => none
  | fuel + 1, c :: rest =>
    if c == '"' then some ([], rest)
    else if c == '\\' then
      match rest with
      | [] => none
      | e :: rest2 =>
        let decoded : Option (Char × List Char) :=
          if e == 'u' then
            (hexQuad rest2).map fun nr => (Char.ofNat nr.1, nr.2)
          else
            (jsonEscapeMap.find? fun pr => pr.1 == e).map fun pr => (pr.2, rest2)
        match decoded with
        | some (d, rs) =>
          match jsonStrLoop fuel rs with
          | some (tail, rem) => some (d :: tail, rem)
          | none => none
        | none => none
    else if c.toNat < 0x20 then none
    else
      match jsonStrLoop fuel rest with
      | some (tail, rem) => some (c :: tail, rem)
      | none => none

/-- Embedding of `JSON.parse(q)` when the result must be a string (the
`parseJsonString` helper of both sources): accepts exactly a JSON string
literal, optionally followed by JSON whitespace, and returns the decoded
string; `none` models a thrown `SyntaxError` or a non-string result. Callers
in the sources only invoke it on inputs that start with a quote. -/
def jsonParseString (s : String) : Option String :=
  match s.data with
  | '"' :: rest =>
    match jsonStrLoop (rest.length + 1) rest with
    | some (body, remaining) =>
      if remaining.all isJsonWS then some (⟨body⟩ : String) else none
    | none => none
  | _ => none

/-! ## Regex-literal splitting and escaping (host regex engine boundary) -/

/-- Characters escaped by the shared `escapeRegex` helper (the character
class of its replacement regex). -/
def regexSpecialChar (c : Char) : Bool :=
  ".*+?^$\x7b\x7d()|[]\\".data.contains c

/-- Embedding of the shared `escapeRegex` helper: prefix every regex special
character with a backslash. -/
def escapeRegex (s : String) : String :=
  ⟨s.data.foldr (fun c acc => if regexSpecialChar c then '\\' :: c :: acc else c :: acc) []⟩

/-- The flag characters accepted by the regex-literal rule of
`parseTextSpec` (the character class `dgimsuyv`). -/
def regexFlagChar (c : Char) : Bool :=
  "dgimsuyv".data.contains c

/-- On the reversed remainder of the input, find the earliest slash preceded
only by flag characters; returns the reversed flags and reversed body. -/
def splitRegexRev : List Char → Option (List Char × List Char)
  | [] => none
  | c :: r =>
    if c == '/' then some ([], r)
    else if regexFlagChar c then
      match splitRegexRev r with
      | some (fr, br) => some (c :: fr, br)
      | none => none
    else none

/-- Embedding of `input.match(/^\x2f([\s\S]*)\x2f([dgimsuyv]*)$/)` with the
greedy body: the input must start with a slash and split at the last slash
whose suffix consists of flag characters only. -/
def regexLiteralSplit (s : String) : Option (String × String) :=
  match s.data with
  | '/' :: rest =>
    match splitRegexRev rest.reverse with
    | some (fr, br) => some ((⟨br.reverse⟩ : String), (⟨fr.reverse⟩ : String))
    | none => none
  | _ => none

/-! ## Data model -/

/-- Embedding of the `TextMatcher` union: a plain JS string, an
`\x7bvalue, exact\x7d` object, or a `\x7bpattern, flags\x7d` object. -/
inductive TextMatcher where
  | plain (s : String)
  | exact (value : String) (exact : Bool)
  | regex (pattern : String) (flags : String)
deriving DecidableEq, Repr

/-- The host-regex-engine boundary: `new RegExp(body, flags)` either throws
(`none`) or yields a compiled regex whose `source` and `flags` are read
back. -/
def RegexCompile := String → String → Option (String × String)

/-- Embedding of `parseTextSpec` from the revised source. The regex engine
is an explicit parameter; each grammar rule that fails falls through to the
next, and the final fallback is the verbatim input as plain text. -/
def parseTextSpec (rex : RegexCompile) (input? : Option String) : Option TextMatcher :=
  match input? with
  | none => none
  | some input =>
    if input == "" then none
    else
      let rule1 : Option TextMatcher :=
        match regexLiteralSplit input with
        | some (b, f) =>
          match rex b f with
          | some (src, fl) => some (TextMatcher.regex src fl)
          | none => none
        | none => none
      match rule1 with
      | some m => some m
      | none =>
        let rule2 : Option TextMatcher :=
          if jsEndsWith input "\"s" || jsEndsWith input "\"i" then
            let quoted := jsDropLast input
            if jsStartsWith quoted "\"" && jsEndsWith quoted "\"" then
              match jsonParseString quoted with
              | some decoded =>
                if jsLastChar input == some 's' then
                  some (TextMatcher.exact decoded true)
                else
                  some (TextMatcher.regex (escapeRegex decoded) "i")
              | none => none
            else none
          else none
        match rule2 with
        | some m => some m
        | none =>
          let rule3 : Option TextMatcher :=
            if jsStartsWith input "\"" && jsEndsWith input "\"" then
              (jsonParseString input).map TextMatcher.plain
            else none
          match rule3 with
          | some m => some m
          | none => some (TextMatcher.plain input)

/-- Embedding of `parseTextSpec` from the packages/playwright-core variant;
its body is character-for-character the same grammar as the revised one. -/
def parseTextSpecOld (rex : RegexCompile) (input? : Option String) : Option TextMatcher :=
  match input? with
  | none => none
  | some input =>
    if input == "" then none
    else
      let rule1 : Option TextMatcher :=
        match regexLiteralSplit input with
        | some (b, f) =>
          match rex b f with
          | some (src, fl) => some (TextMatcher.regex src fl)
          | none => none
        | none => none
      match rule1 with
      | some m => some m
      | none =>
        let rule2 : Option TextMatcher :=
          if jsEndsWith input "\"s" || jsEndsWith input "\"i" then
            let quoted := jsDropLast input
            if jsStartsWith quoted "\"" && jsEndsWith quoted "\"" then
              match jsonParseString quoted with
              | some decoded =>
                if jsLastChar input == some 's' then
                  some (TextMatcher.exact decoded true)
                else
                  some (TextMatcher.regex (escapeRegex decoded) "i")
              | none => none
            else none
          else none
        match rule2 with
        | some m => some m
        | none =>
          let rule3 : Option TextMatcher :=
            if jsStartsWith input "\"" && jsEndsWith input "\"" then
              (jsonParseString input).map TextMatcher.plain
            else none
          match rule3 with
          | some m => some m
          | none => some (TextMatcher.plain input)

/-- Values produced by the external attribute-body parser for an attribute:
a JS string, number, boolean, or a host `RegExp` instance. -/
inductive AttrVal where
  | str (s : String)
  | num (n : Int)
  | boolean (b : Bool)
  | regex (pattern : String) (flags : String)
deriving DecidableEq, Repr

/-- One attribute returned by the external attribute-body parser. -/
structure AttrItem where
  name : String
  op : String
  value : AttrVal
  caseSensitive : Bool
deriving DecidableEq, Repr

/-- Result of the external attribute-body parser: a selector name plus an
ordered attribute list. -/
structure AttrSel where
  name : String
  attributes : List AttrItem
deriving DecidableEq, Repr

/-- Element fields that hold either a structured `TextMatcher` or a raw
attribute value passed through unchanged (the `internal:attr` branch may
store `first.value` verbatim, and the old variant stores role-name
attribute values verbatim). -/
inductive FVal where
  | tm (t : TextMatcher)
  | av (v : AttrVal)
deriving DecidableEq, Repr

/-- Values stored for the role state attributes `checked`, `pressed`,
`selected`, `expanded`, `disabled`: a boolean or a raw string such as
`"mixed"`. -/
inductive BoolOrStr where
  | b (v : Bool)
  | s (v : String)
deriving DecidableEq, Repr

/-- Embedding of the element property bag built by
`elementFromParsedSelector`: each optional field is present exactly when
the corresponding assignment ran. -/
structure Element where
  testId : Option String := none
  role : Option String := none
  rname : Option FVal := none
  include_hidden : Option Bool := none
  level : Option Int := none
  checked : Option BoolOrStr := none
  pressed : Option BoolOrStr := none
  selected : Option BoolOrStr := none
  expanded : Option BoolOrStr := none
  disabled : Option BoolOrStr := none
  text : Option FVal := none
  label : Option FVal := none
  placeholder : Option FVal := none
  alt : Option FVal := none
  title : Option FVal := none
  css : Option String := none
  xpath : Option String := none
deriving DecidableEq, Repr

/- Embedding of the parsed selector AST consumed from the external grammar
(`RawSelectorAST`): an ordered part list plus an optional capture index.
A part body is absent, a raw string, or (for `internal:has` and
`internal:has-not`) a nested parsed selector; the nested `distance` field is
never read by the mapper and is omitted. -/
mutual
inductive ParsedSelector where
  | mk (parts : List SelectorPart) (capture : Option Int)
inductive SelectorPart where
  | mk (name : String) (body : PartBody) (source : String)
inductive PartBody where
  | nothing
  | str (s : String)
  | nested (parsed : ParsedSelector)
end

def ParsedSelector.parts : ParsedSelector → List SelectorPart
  | .mk ps _ => ps

def ParsedSelector.capture : ParsedSelector → Option Int
  | .mk _ c => c

def SelectorPart.name : SelectorPart → String
  | .mk n _ _ => n

def SelectorPart.body : SelectorPart → PartBody
  | .mk _ b _ => b

def SelectorPart.source : SelectorPart → String
  | .mk _ _ s => s

/-- The string a part body coerces to when used `as string`: `none` models
`undefined`; a nested object is not a string (its uses behind `as string`
reach string-only code paths only through `String(...)` coercions, which the
relevant branches never take for object bodies). -/
def PartBody.asString : PartBody → Option String
  | .nothing => none
  | .str s => some s
  | .nested _ => none

/- The structured result of `elementFromParsedSelector`: an element, optional
filters and an optional ordinal. `FiltersRec` is mutually recursive with the
result because `has` and `hasNot` carry nested results. -/
mutual
inductive PSResult where
  | mk (element : Element) (filters : Option FiltersRec) (nth : Option Int)
inductive FiltersRec where
  | mk (hasText : Option TextMatcher) (hasNotText : Option TextMatcher)
       (visible : Option Bool) (has : Option PSResult) (hasNot : Option PSResult)
end

def PSResult.element : PSResult → Element
  | .mk e _ _ => e

def PSResult.filters : PSResult → Option FiltersRec
  | .mk _ f _ => f

def PSResult.nth : PSResult → Option Int
  | .mk _ _ n => n

def FiltersRec.empty : FiltersRec := .mk none none none none none

def FiltersRec.hasText : FiltersRec → Option TextMatcher
  | .mk ht _ _ _ _ => ht

def FiltersRec.hasNotText : FiltersRec → Option TextMatcher
  | .mk _ hnt _ _ _ => hnt

def FiltersRec.visible : FiltersRec → Option Bool
  | .mk _ _ v _ _ => v

def FiltersRec.has : FiltersRec → Option PSResult
  | .mk _ _ _ h _ => h

def FiltersRec.hasNot : FiltersRec → Option PSResult
  | .mk _ _ _ _ hn => hn

def FiltersRec.withHasText (f : FiltersRec) (t : Option TextMatcher) : FiltersRec :=
  match f with | .mk _ hnt v h hn => .mk t hnt v h hn

def FiltersRec.withHasNotText (f : FiltersRec) (t : Option TextMatcher) : FiltersRec :=
  match f with | .mk ht _ v h hn => .mk ht t v h hn

def FiltersRec.withVisible (f : FiltersRec) (b : Bool) : FiltersRec :=
  match f with | .mk ht hnt _ h hn => .mk ht hnt (some b) h hn

def FiltersRec.withHas (f : FiltersRec) (r : PSResult) : FiltersRec :=
  match f with | .mk ht hnt v _ hn => .mk ht hnt v (some r) hn

def FiltersRec.withHasNot (f : FiltersRec) (r : PSResult) : FiltersRec :=
  match f with | .mk ht hnt v h _ => .mk ht hnt v h (some r)

/-- The record read from the host `new URL(u)`: the fields the generator
consumes. A parse failure (`none` from the oracle) models a thrown
`TypeError`. -/
structure UrlRec where
  protocol : String
  hostname : String
  origin : String
  pathname : String
  search : String
  hash : String
deriving DecidableEq, Repr

/-- The bundle of external collaborators: the selector-grammar parser
(`parseSelector`, throwing modelled as `none`), the attribute-body parser
(`parseAttributeSelector`; its argument is the body coerced `as string`),
the chain re-stringifier (`stringifySelector`), the host URL parser and the
host regex compiler. -/
structure Ext where
  parseSel : String → Option ParsedSelector
  parseAttr : Option String → Option AttrSel
  stringifySel : ParsedSelector → String
  urlParse : String → Option UrlRec
  regexCompile : RegexCompile

/-! ## Base-index resolution (revised source) -/

/-- The fixed filter-engine set of the revised source. -/
def FILTER_ENGINES : List String :=
  ["internal:has-text", "internal:has-not-text", "internal:has",
   "internal:has-not", "visible", "nth"]

/-- The fixed ignore set of the revised source. -/
def IGNORE_ENGINES : List String := ["internal:describe"]

/-- A part the backward scan stops at: a non-empty engine name that is in
neither the filter-engine set nor the ignore set. -/
def qualifies (p : SelectorPart) : Bool :=
  p.name ≠ "" && !(IGNORE_ENGINES.contains p.name) && !(FILTER_ENGINES.contains p.name)

/-- The index of the last part the backward scan stops at, if any
(embedding of the `for` loop that walks from the end). -/
def lastQualIdx : List SelectorPart → Option Nat
  | [] => none
  | q :: rest =>
    match lastQualIdx rest with
    | some i => some (i + 1)
    | none => if qualifies q then some 0 else none

/-- `parts[i]?.name` for a possibly negative or out-of-range index. -/
def partNameAt (parts : List SelectorPart) (i : Int) : Option String :=
  if i < 0 then none else (parts.get? i.toNat).map SelectorPart.name

/-- Embedding of the `while` loop that walks backwards past ignored engines
(fuelled; the loop can run at most once per in-range part). -/
def skipIgnoredAux (parts : List SelectorPart) : Nat → Int → Int
  | 0, b => b
  | fuel + 1, b =>
    if b ≥ 0 && (match partNameAt parts b with
                 | some n => IGNORE_ENGINES.contains n
                 | none => false) then
      skipIgnoredAux parts fuel (b - 1)
    else b

/-- The backward scan with its fallback: the last qualifying part, or the
last part when no part qualifies (`baseIndex = -1` replaced by
`parts.length - 1`, which is `-1` again only for an empty part list). -/
def scanStart (parts : List SelectorPart) : Int :=
  match lastQualIdx parts with
  | some i => (i : Int)
  | none => (parts.length : Int) - 1

/-- The resolved base index of the revised source: the capture index when
explicitly non-negative, otherwise the backward scan with its
last-part fallback, in both cases followed by the ignored-engine skip. -/
def resolveBaseIndex (p : ParsedSelector) : Int :=
  let start : Int :=
    match p.capture with
    | some c => if c ≥ 0 then c else scanStart p.parts
    | none => scanStart p.parts
  skipIgnoredAux p.parts (p.parts.length + 1) start

/-! ## Element construction (revised source) -/

/-- JS `String(v)` coercion of an attribute value. -/
def attrValCoerce (v : AttrVal) : String :=
  match v with
  | .str s => s
  | .num n => toString n
  | .boolean b => if b then "true" else "false"
  | .regex p f => "/" ++ p ++ "/" ++ f

/-- JS `String(body)` coercion of a part body (`undefined` is replaced by
the caller before coercion; a nested object stringifies as an object). -/
def PartBody.coerceString : PartBody → String
  | .nothing => ""
  | .str s => s
  | .nested _ => "[object Object]"

/-- Embedding of the `asBool` helper inside the `internal:role` branch:
a bare truthy flag, a boolean value, or the strings `true`/`false`
(lowercased); anything else is `undefined`. -/
def attrAsBool (attr : AttrItem) : Option Bool :=
  if attr.op == "<truthy>" then some true
  else
    match attr.value with
    | .boolean b => some b
    | .str s =>
      if jsToLower s == "true" then some true
      else if jsToLower s == "false" then some false
      else none
    | _ => none

/-- Embedding of `Number(raw)` for the `level` attribute (integral cases). -/
def levelNum (v : AttrVal) : Option Int :=
  match v with
  | .num n => some n
  | .str s => jsNumberInt s
  | .boolean b => some (if b then 1 else 0)
  | .regex _ _ => none

/-- Setter for the five role state attributes, dispatched by name. -/
def setRoleState (el : Element) (n : String) (v : BoolOrStr) : Element :=
  match n with
  | "checked" => { el with checked := some v }
  | "pressed" => { el with pressed := some v }
  | "selected" => { el with selected := some v }
  | "expanded" => { el with expanded := some v }
  | "disabled" => { el with disabled := some v }
  | _ => el

/-- Embedding of the revised `internal:role` attribute switch: `name` builds
a `TextMatcher` (regex value to a regex matcher, case-sensitive string to an
exact matcher, otherwise plain text), `include-hidden` and the state
attributes decode boolean-ish values, `level` decodes a number; unknown
attributes only record a warning (the debug sink is elided). -/
def applyRoleAttr (el : Element) (attr : AttrItem) : Element :=
  match attr.name with
  | "name" =>
    let matcher : TextMatcher :=
      match attr.value with
      | .regex p f => .regex p f
      | v =>
        if attr.caseSensitive then .exact (attrValCoerce v) true
        else .plain (attrValCoerce v)
    { el with rname := some (.tm matcher) }
  | "include-hidden" =>
    match attrAsBool attr with
    | some v => { el with include_hidden := some v }
    | none => el
  | "level" =>
    match levelNum attr.value with
    | some n => { el with level := some n }
    | none => el
  | "checked" | "pressed" | "selected" | "expanded" | "disabled" =>
    match attrAsBool attr with
    | some v => setRoleState el attr.name (.b v)
    | none =>
      match attr.value with
      | .str s => setRoleState el attr.name (.s s)
      | _ => el
  | _ => el

/-- Embedding of the regex `=\s*(.+)\s*\]$` applied to an attribute body to
recover the original textual value: the text after the first `=` (leading
whitespace skipped as far as a non-empty capture allows) up to the final
closing bracket. -/
def attrRawValueSourceAux : List Char → Option (List Char)
  | [] => none
  | '=' :: rest =>
    let candidate : Option (List Char) :=
      if rest.length ≥ 2 && rest.getLast? == some ']' then
        let wsLen := (rest.takeWhile isJsWS).length
        let k := min wsLen (rest.length - 2)
        some ((rest.drop k).dropLast)
      else none
    match candidate with
    | some r => some r
    | none => attrRawValueSourceAux rest
  | _ :: rest => attrRawValueSourceAux rest

def attrRawValueSource (body : String) : Option String :=
  (attrRawValueSourceAux body.data).map fun cs => (⟨cs⟩ : String)

/-- Embedding of the `internal:attr` branch of the revised source. -/
def elementFromAttrPart (ext : Ext) (parsed : ParsedSelector) (basePart : SelectorPart) : Element :=
  match ext.parseAttr basePart.body.asString with
  | none => {}
  | some asel =>
    match asel.attributes.head? with
    | none => { css := some (ext.stringifySel parsed) }
    | some first =>
      let attrName := jsToLower first.name
      let body := PartBody.coerceString basePart.body
      let rawValueSource := attrRawValueSource body
      let textMatcher : Option TextMatcher :=
        match rawValueSource with
        | some rvs => if rvs == "" then none else parseTextSpec ext.regexCompile (some rvs)
        | none => none
      let value : FVal :=
        match textMatcher with
        | some t => .tm t
        | none => .av first.value
      match attrName with
      | "alt" => { alt := some value }
      | "title" => { title := some value }
      | "placeholder" => { placeholder := some value }
      | _ => { css := some (ext.stringifySel parsed) }

/-- Embedding of the engine-name switch of the revised
`elementFromParsedSelector` that builds the element from the base part.
Warnings to the debug sink are diagnostics only and are elided. Where the
source would assign `undefined` to a field (a text branch with an absent
body), the model leaves the field absent. -/
def elementFromBasePart (ext : Ext) (parsed : ParsedSelector) (basePart : SelectorPart) : Element :=
  match basePart.name with
  | "internal:testid" =>
    match ext.parseAttr basePart.body.asString with
    | some asel =>
      match asel.attributes.head? with
      | some a => { testId := some (attrValCoerce a.value) }
      | none => {}
    | none => {}
  | "internal:role" =>
    match ext.parseAttr basePart.body.asString with
    | some asel => asel.attributes.foldl applyRoleAttr { role := some asel.name }
    | none => {}
  | "internal:text" =>
    { text := (parseTextSpec ext.regexCompile basePart.body.asString).map FVal.tm }
  | "css" | "css:light" => { css := some basePart.source }
  | "xpath" => { xpath := some basePart.source }
  | "internal:label" =>
    { label := (parseTextSpec ext.regexCompile basePart.body.asString).map FVal.tm }
  | "internal:placeholder" =>
    { placeholder := (parseTextSpec ext.regexCompile basePart.body.asString).map FVal.tm }
  | "internal:attr" => elementFromAttrPart ext parsed basePart
  | _ => { css := some (ext.stringifySel parsed) }

/-- Embedding of the post-base filter loop body of the revised source;
`recur` is the recursive re-parse of a stringified nested chain. -/
def applyFilterPart (ext : Ext) (recur : Option String → Option PSResult)
    (st : Option FiltersRec × Option Int) (part : SelectorPart) :
    Option FiltersRec × Option Int :=
  match part.name with
  | "internal:describe" => st
  | "internal:has-text" =>
    (some ((st.1.getD .empty).withHasText
      (parseTextSpec ext.regexCompile part.body.asString)), st.2)
  | "internal:has-not-text" =>
    (some ((st.1.getD .empty).withHasNotText
      (parseTextSpec ext.regexCompile part.body.asString)), st.2)
  | "visible" =>
    let raw : String :=
      match part.body with
      | .nothing => "true"
      | b => PartBody.coerceString b
    (some ((st.1.getD .empty).withVisible (!(jsToLower (jsTrim raw) == "false"))), st.2)
  | "internal:has" =>
    match part.body with
    | .nested np =>
      match recur (some (ext.stringifySel np)) with
      | some nested => (some ((st.1.getD .empty).withHas nested), st.2)
      | none => st
    | _ => st
  | "internal:has-not" =>
    match part.body with
    | .nested np =>
      match recur (some (ext.stringifySel np)) with
      | some nested => (some ((st.1.getD .empty).withHasNot nested), st.2)
      | none => st
    | _ => st
  | "nth" =>
    match parseIntJS (PartBody.coerceString part.body) with
    | some n => (st.1, some n)
    | none => st
  | _ => st

/-- Embedding of the revised `elementFromParsedSelector` after a successful
parse: base-index resolution, element construction, then the filter loop. -/
def elementFromParsedCoreWith (ext : Ext) (recur : Option String → Option PSResult)
    (raw : String) (parsed : ParsedSelector) : PSResult :=
  let baseIndex := resolveBaseIndex parsed
  if baseIndex < 0 then .mk { css := some raw } none none
  else
    match parsed.parts.get? baseIndex.toNat with
    | none => .mk { css := some raw } none none
    | some basePart =>
      let element := elementFromBasePart ext parsed basePart
      let fl := (parsed.parts.drop (baseIndex.toNat + 1)).foldl
        (applyFilterPart ext recur) (none, none)
      .mk element fl.1 fl.2

/-- Embedding of the revised `elementFromParsedSelector`: absent or empty
raw strings and parse failures yield no result; otherwise the core runs.
The fuel bounds the `has`/`has-not` re-stringify-and-re-parse recursion,
which the source terminates because nested chains are strictly smaller. -/
def elementFromParsedSelector (ext : Ext) : Nat → Option String → Option PSResult
  | 0, _ => none
  | fuel + 1, raw? =>
    match raw? with
    | none => none
    | some raw =>
      if raw == "" then none
      else
        match ext.parseSel raw with
        | none => none
        | some parsed =>
          some (elementFromParsedCoreWith ext (elementFromParsedSelector ext fuel) raw parsed)

/-! ## The packages/playwright-core variant of the selector mapper -/

/-- The (smaller) filter-engine set of the old variant. -/
def FILTER_ENGINES_OLD : List String := ["internal:has-text", "internal:has", "nth"]

/-- Last index whose engine name is not in the old filter set. -/
def lastNonFilterOldIdx : List SelectorPart → Option Nat
  | [] => none
  | q :: rest =>
    match lastNonFilterOldIdx rest with
    | some i => some (i + 1)
    | none => if !(FILTER_ENGINES_OLD.contains q.name) then some 0 else none

/-- Base index of the old variant: capture when explicitly non-negative,
else the last non-filter part, defaulting to the last part. There is no
ignore set and no backward skip. -/
def resolveBaseIndexOld (p : ParsedSelector) : Int :=
  let scan : Int :=
    match lastNonFilterOldIdx p.parts with
    | some i => (i : Int)
    | none => (p.parts.length : Int) - 1
  match p.capture with
  | some c => if c ≥ 0 then c else scan
  | none => scan

/-- Element construction of the old variant: role `name` attributes are
stored verbatim (no `TextMatcher`), other role attributes are ignored, and
there is no `internal:attr` branch. -/
def elementFromBasePartOld (ext : Ext) (parsed : ParsedSelector) (basePart : SelectorPart) : Element :=
  match basePart.name with
  | "internal:testid" =>
    match ext.parseAttr basePart.body.asString with
    | some asel =>
      match asel.attributes.head? with
      | some a => { testId := some (attrValCoerce a.value) }
      | none => {}
    | none => {}
  | "internal:role" =>
    match ext.parseAttr basePart.body.asString with
    | some asel =>
      asel.attributes.foldl
        (fun el attr => if attr.name == "name" then { el with rname := some (.av attr.value) } else el)
        { role := some asel.name }
    | none => {}
  | "internal:text" =>
    { text := (parseTextSpecOld ext.regexCompile basePart.body.asString).map FVal.tm }
  | "css" | "css:light" => { css := some basePart.source }
  | "xpath" => { xpath := some basePart.source }
  | "internal:label" =>
    { label := (parseTextSpecOld ext.regexCompile basePart.body.asString).map FVal.tm }
  | "internal:placeholder" =>
    { placeholder := (parseTextSpecOld ext.regexCompile basePart.body.asString).map FVal.tm }
  | _ => { css := some (ext.stringifySel parsed) }

/-- Filter loop of the old variant: only `internal:has-text` and `nth`. -/
def applyFilterPartOld (ext : Ext) (st : Option FiltersRec × Option Int)
    (part : SelectorPart) : Option FiltersRec × Option Int :=
  match part.name with
  | "internal:has-text" =>
    (some ((st.1.getD .empty).withHasText
      (parseTextSpecOld ext.regexCompile part.body.asString)), st.2)
  | "nth" =>
    match parseIntJS (PartBody.coerceString part.body) with
    | some n => (st.1, some n)
    | none => st
  | _ => st

/-- Embedding of the old `elementFromParsedSelector`. It has no recursive
nested-selector handling, hence no fuel. -/
def elementFromParsedSelectorOld (ext : Ext) (raw? : Option String) : Option PSResult :=
  match raw? with
  | none => none
  | some raw =>
    if raw == "" then none
    else
      match ext.parseSel raw with
      | none => none
      | some parsed =>
        let baseIndex := resolveBaseIndexOld parsed
        if baseIndex < 0 then some (.mk { css := some raw } none none)
        else
          match parsed.parts.get? baseIndex.toNat with
          | none => some (.mk { css := some raw } none none)
          | some basePart =>
            let element := elementFromBasePartOld ext parsed basePart
            let fl := (parsed.parts.drop (baseIndex.toNat + 1)).foldl
              (applyFilterPartOld ext) (none, none)
            some (.mk element fl.1 fl.2)

/-! ## Frames, signals, expectations -/

/-- Embedding of the frame references produced by the revised
`frameRefFromString`: a name match or a url-contains fallback. -/
inductive FrameRef where
  | name (s : String)
  | url_contains (s : String)
deriving DecidableEq, Repr

/-- Embedding of the revised `frameRefFromString`:
the regex `^frame\[name="(.+)"\]$` with a greedy capture, else the
url-contains fallback. -/
def frameRefFromString (sel : String) : FrameRef :=
  let pre := "frame[name=\"".data
  let suf := "\"]".data
  if pre.isPrefixOf sel.data && suf.reverse.isPrefixOf sel.data.reverse &&
     decide (sel.data.length ≥ pre.length + suf.length + 1) then
    .name ⟨(sel.data.drop pre.length).dropLast.dropLast⟩
  else .url_contains sel

/-- Embedding of `framePathToObjects`: an absent or empty path is dropped. -/
def framePathToObjects (path : Option (List String)) : Option (List FrameRef) :=
  match path with
  | none => none
  | some [] => none
  | some ps => some (ps.map frameRefFromString)

/-- Recorded side-effect signals attached to an action. -/
inductive Signal where
  | navigation (url : Option String)
  | popup (popupAlias : Option String)
  | download
  | dialog
  | other (nm : String)
deriving DecidableEq, Repr

/-- URL hints on navigation expectations. -/
inductive UrlHint where
  | url_exact (s : String)
  | url_contains (s : String)
deriving DecidableEq, Repr

/-- Structured expectations derived from signals. -/
inductive Expectation where
  | navigation (hint : Option UrlHint)
  | popup (pageAlias : Option String)
  | download
  | dialog
deriving DecidableEq, Repr

/-- Embedding of `toUrlHint`: exact for parseable absolute http(s) URLs,
contains otherwise (including a parse failure); absent or empty is no
hint. -/
def toUrlHint (ext : Ext) (url : Option String) : Option UrlHint :=
  match url with
  | none => none
  | some u =>
    if u == "" then none
    else
      match ext.urlParse u with
      | some r =>
        if r.protocol == "http:" || r.protocol == "https:" then some (.url_exact u)
        else some (.url_contains u)
      | none => some (.url_contains u)

/-- Embedding of the per-signal mapping in `expectFromSignals`; unknown
signal kinds are ignored. -/
def expectationOfSignal (ext : Ext) : Signal → Option Expectation
  | .navigation u => some (.navigation (toUrlHint ext u))
  | .popup a => some (.popup a)
  | .download => some .download
  | .dialog => some .dialog
  | .other _ => none

/-- Embedding of `expectFromSignals`: no signals, or no recognized signals,
yield no expectations field. -/
def expectFromSignals (ext : Ext) (signals : List Signal) : Option (List Expectation) :=
  if signals.isEmpty then none
  else
    let es := signals.filterMap (expectationOfSignal ext)
    if es.isEmpty then none else some es

/-! ## Secret masking -/

/-- The fixed masked placeholder token of `maybeMaskValue`. -/
def MASKED : String := "$\x7benv:ANET_PASSWORD\x7d"

/-- Embedding of `/password|pwd|secret/i.test s`. -/
def secretTest (s : String) : Bool :=
  containsSub (jsToLower s) "password" || containsSub (jsToLower s) "pwd" ||
  containsSub (jsToLower s) "secret"

/-- Embedding of the revised `matchText` on a `TextMatcher` value: a plain
string, the `value` of an exact matcher, or the `pattern` of a regex
matcher. -/
def matchTextTM (t : TextMatcher) : Bool :=
  match t with
  | .plain s => secretTest s
  | .exact v _ => secretTest v
  | .regex p _ => secretTest p

/-- `matchText` applied to an element field: raw attribute values other
than strings have no `value`/`pattern` member that the pattern test could
match. -/
def matchTextF (f : FVal) : Bool :=
  match f with
  | .tm t => matchTextTM t
  | .av (.str s) => secretTest s
  | .av _ => false

/-- JS string coercion of `el.name ?? ""` inside `maybeMaskValue`: only a
plain string matcher is itself a string; matcher objects coerce to
`[object Object]`. -/
def jsNameCoerce (n : Option FVal) : String :=
  match n with
  | none => ""
  | some (.tm (.plain s)) => s
  | some (.tm _) => "[object Object]"
  | some (.av v) => attrValCoerce v

/-- Embedding of the revised `maybeMaskValue`: when the element or the text
is absent the text passes through; otherwise the discriminating fields are
tested in source order and a match replaces the text by the masked
placeholder token. -/
def maybeMaskValue (el? : Option Element) (text? : Option String) : Option String :=
  match el? with
  | none => text?
  | some el =>
    match text? with
    | none => none
    | some t =>
      if (match el.testId with | some v => secretTest v | none => false) then some MASKED
      else if (match el.label with | some f => matchTextF f | none => false) then some MASKED
      else if (match el.placeholder with | some f => matchTextF f | none => false) then some MASKED
      else if el.role.isSome && secretTest (jsNameCoerce el.rname) then some MASKED
      else if (match el.text with | some f => matchTextF f | none => false) then some MASKED
      else if (match el.css with | some s => secretTest s | none => false) then some MASKED
      else if (match el.xpath with | some s => secretTest s | none => false) then some MASKED
      else some t

/-! ## Modifier decoding and trivial URLs -/

/-- Embedding of the revised `decodeModifiers`: a zero (or absent) mask has
no modifiers; otherwise the set bits decode in the fixed order
Alt, Control, Meta, Shift. -/
def decodeModifiers (mask : Nat) : Option (List String) :=
  if mask == 0 then none
  else
    let result :=
      (if mask.land 1 ≠ 0 then ["Alt"] else []) ++
      (if mask.land 2 ≠ 0 then ["Control"] else []) ++
      (if mask.land 4 ≠ 0 then ["Meta"] else []) ++
      (if mask.land 8 ≠ 0 then ["Shift"] else [])
    if result.isEmpty then none else some result

/-- The fixed trivial-URL prefix list shared by both sources. -/
def TRIVIAL_URL_PREFIXES : List String :=
  ["about:blank", "chrome-error://", "devtools://", "edge://", "data:",
   "blob:", "chrome-extension://"]

/-- Embedding of `isTrivialUrl`: an absent or empty URL is trivial, as is
any URL starting with one of the fixed prefixes. -/
def isTrivialUrl (url : String) : Bool :=
  if url == "" then true
  else TRIVIAL_URL_PREFIXES.any fun p => jsStartsWith url p

/-! ## Recorded actions -/

/-- The frame context of a recorded action. -/
structure FrameCtx where
  pageAlias : Option String := none
  framePath : Option (List String) := none
deriving DecidableEq, Repr

/-- The recorded action variants consumed by the generator, restricted to
the fields each branch reads. Selector-bearing variants carry the raw
selector string (`none` models a null or undefined field value). -/
inductive RecAction where
  | navigate (url : String)
  | openPage (url : String)
  | click (selector : Option String) (button : String) (modifiers : Nat)
          (clickCount : Int) (signals : List Signal)
  | fill (selector : Option String) (text : String) (signals : List Signal)
  | press (selector : Option String) (key : String) (modifiers : Nat)
          (signals : List Signal)
  | check (selector : Option String) (signals : List Signal)
  | uncheck (selector : Option String) (signals : List Signal)
  | assertText (selector : Option String) (text : String)
  | assertValue (selector : Option String) (value : String)
  | assertVisible (selector : Option String) (isNot : Bool)
  | assertChecked (selector : Option String) (checked : Bool)
  | closePage
  | select (selector : Option String) (options : List String) (signals : List Signal)
  | unsupported (nm : String)
deriving DecidableEq, Repr

/-- Embedding of the selector-field presence probe (the `in` operator test): the outer option is the presence
of the field, the inner its possibly-null value. -/
def RecAction.selectorField : RecAction → Option (Option String)
  | .click s _ _ _ _ => some s
  | .fill s _ _ => some s
  | .press s _ _ _ => some s
  | .check s _ => some s
  | .uncheck s _ => some s
  | .assertText s _ => some s
  | .assertValue s _ => some s
  | .assertVisible s _ => some s
  | .assertChecked s _ => some s
  | .select s _ _ => some s
  | _ => none

/-- The signals attached to an action (`action?.signals`). -/
def RecAction.signalsOf : RecAction → List Signal
  | .click _ _ _ _ sg => sg
  | .fill _ _ sg => sg
  | .press _ _ _ sg => sg
  | .check _ sg => sg
  | .uncheck _ sg => sg
  | .select _ _ sg => sg
  | _ => []

/-- A recorded action in its frame context. -/
structure AIC where
  frame : FrameCtx := {}
  action : RecAction
deriving DecidableEq, Repr

/-! ## Structured selector construction -/

/-- The structured selector record built per action. -/
structure SelectorRec where
  page : Option String := none
  framePath : Option (List FrameRef) := none
  element : Option Element := none
  filters : Option FiltersRec := none
  nth : Option Int := none

/-- String-option truthiness (`if (x)` on a possibly absent string). -/
def isTruthyOpt (o : Option String) : Bool :=
  match o with
  | some s => s ≠ ""
  | none => false

/-- Embedding of the revised `buildStructuredSelector`: page alias and frame
path when present, then for selector-bearing actions the mapped element with
the `css` fallback holding the raw string or the `UNKNOWN` marker. -/
def buildStructuredSelector (ext : Ext) (fuel : Nat) (aic : AIC) : SelectorRec :=
  let s0 : SelectorRec := {}
  let s1 :=
    if isTruthyOpt aic.frame.pageAlias then { s0 with page := aic.frame.pageAlias } else s0
  let s2 :=
    match framePathToObjects aic.frame.framePath with
    | some fp => { s1 with framePath := some fp }
    | none => s1
  match aic.action.selectorField with
  | none => s2
  | some raw =>
    let mapped := elementFromParsedSelector ext fuel raw
    let s3 := { s2 with element := some (match mapped with
      | some m => m.element
      | none => { css := some (raw.getD "UNKNOWN") }) }
    let s4 :=
      match mapped with
      | some m =>
        match m.filters with
        | some f => { s3 with filters := some f }
        | none => s3
      | none => s3
    match mapped with
    | some m =>
      match m.nth with
      | some n => { s4 with nth := some n }
      | none => s4
    | none => s4

/-! ## The scenario emitter -/

/-- The per-instance state of `YamlLanguageGenerator`. -/
structure GenState where
  headerEmitted : Bool := false
  seedUrl : Option String := none
  metaVersion : String := "0.2"
  metaName : String := "Recorded Scenario"
  metaBaseURL : Option String := none
  debug : Bool := false
deriving DecidableEq, Repr

/-- The step record assembled by `generateAction` before default stripping
and YAML rendering; absent options model unset (or undefined-valued)
properties. `debugPresent` records whether a `debug` payload was attached. -/
structure StepRec where
  action : String
  url : Option String := none
  text : Option String := none
  key : Option String := none
  value : Option String := none
  visible : Option Bool := none
  checked : Option Bool := none
  clickCount : Option Int := none
  button : Option String := none
  modifiers : Option (List String) := none
  options : Option (List String) := none
  expectations : Option (List Expectation) := none
  selector : SelectorRec := { }
  debugPresent : Bool := false

/-- An output fragment pushed by `generateAction`: the lazily emitted
header block (its meta contents at emission time) or one serialized step
list item. The YAML text rendering is an opaque pretty-printer and is
abstracted to these fragments. -/
inductive Frag where
  | headerBlock (version : String) (nm : String) (baseURL : Option String)
  | stepItem (s : StepRec)

/-- Embedding of `generateHeader` of the revised source: derives the
scenario name from the seed base URL host when provided (a host URL parse
failure there would throw, modelled as `none`), stores the seed as the meta
base URL, and resets the header flag. The environment toggle enables debug
mode. -/
def generateHeader (ext : Ext) (debugEnv : Bool) (baseURLOpt : Option String)
    (g : GenState) : Option GenState :=
  let dbg := if debugEnv then true else g.debug
  let seed := if isTruthyOpt baseURLOpt then baseURLOpt else none
  match seed with
  | some s =>
    match ext.urlParse s with
    | some r =>
      some { g with debug := dbg, seedUrl := some s, metaName := r.hostname,
                    metaBaseURL := baseURLOpt, headerEmitted := false }
    | none => none
  | none =>
    some { g with debug := dbg, seedUrl := none, metaName := "Recorded Scenario",
                  metaBaseURL := none, headerEmitted := false }

/-- The final assignments shared by every retained step: the structured
selector and, in debug mode, the debug payload. -/
def finalizeStep (sel : SelectorRec) (dbg : Bool) (s : StepRec) : StepRec :=
  { s with selector := sel, debugPresent := s.debugPresent || dbg }

/-- Embedding of the revised `generateAction`: one recorded action in, the
updated emitter state and the pushed output fragments out. Trivial
navigations are suppressed entirely; a retained navigation seeds the base
URL from its origin when unset, lazily emits the header, and rewrites
same-origin URLs relative to the base URL. -/
def generateAction (ext : Ext) (fuel : Nat) (g : GenState) (aic : AIC) :
    GenState × List Frag :=
  let sel := buildStructuredSelector ext fuel aic
  match aic.action with
  | .navigate url | .openPage url =>
    if isTrivialUrl url then (g, [])
    else
      let g1 :=
        if isTruthyOpt g.metaBaseURL then g
        else { g with metaBaseURL := some (match ext.urlParse url with
                 | some r => r.origin
                 | none => url) }
      let hdr : List Frag :=
        if !g1.headerEmitted then
          [.headerBlock g1.metaVersion g1.metaName g1.metaBaseURL]
        else []
      let g2 := if !g1.headerEmitted then { g1 with headerEmitted := true } else g1
      let outputUrl :=
        if isTruthyOpt g2.metaBaseURL && url ≠ "" then
          match g2.metaBaseURL with
          | some b =>
            match ext.urlParse b, ext.urlParse url with
            | some pb, some pu =>
              if pb.origin == pu.origin then pu.pathname ++ pu.search ++ pu.hash
              else url
            | _, _ => url
          | none => url
        else url
      (g2, hdr ++ [.stepItem (finalizeStep sel g.debug
        { action := "navigate", url := some outputUrl })])
  | .click _ button mods clickCount _ =>
    let base : StepRec :=
      if clickCount == 2 then { action := "dblclick" }
      else { action := "click",
             clickCount := if clickCount ≠ 1 then some clickCount else none }
    (g, [.stepItem (finalizeStep sel g.debug
      { base with button := some button,
                  modifiers := decodeModifiers mods,
                  expectations := expectFromSignals ext aic.action.signalsOf })])
  | .fill _ text _ =>
    (g, [.stepItem (finalizeStep sel g.debug
      { action := "fill",
        text := maybeMaskValue sel.element (some text),
        expectations := expectFromSignals ext aic.action.signalsOf })])
  | .press _ key mods _ =>
    (g, [.stepItem (finalizeStep sel g.debug
      { action := "press", key := some key,
        modifiers := decodeModifiers mods,
        expectations := expectFromSignals ext aic.action.signalsOf })])
  | .check _ _ =>
    (g, [.stepItem (finalizeStep sel g.debug
      { action := "check",
        expectations := expectFromSignals ext aic.action.signalsOf })])
  | .uncheck _ _ =>
    (g, [.stepItem (finalizeStep sel g.debug
      { action := "uncheck",
        expectations := expectFromSignals ext aic.action.signalsOf })])
  | .assertText _ text =>
    (g, [.stepItem (finalizeStep sel g.debug
      { action := "assert.text", text := some text })])
  | .assertValue _ v =>
    (g, [.stepItem (finalizeStep sel g.debug
      { action := "assert.value", value := some v })])
  | .assertVisible _ isNot =>
    (g, [.stepItem (finalizeStep sel g.debug
      { action := "assert.visible",
        visible := if isNot then some false else none })])
  | .assertChecked _ ch =>
    (g, [.stepItem (finalizeStep sel g.debug
      { action := "assert.checked", checked := some ch })])
  | .closePage =>
    (g, [.stepItem (finalizeStep sel g.debug { action := "closePage" })])
  | .select _ opts _ =>
    (g, [.stepItem (finalizeStep sel g.debug
      { action := "select", options := some opts,
        expectations := expectFromSignals ext aic.action.signalsOf })])
  | .unsupported nm =>
    (g, [.stepItem (finalizeStep sel g.debug
      { action := nm ++ " (NOT SUPPORTED)", debugPresent := !g.debug })])

/-- Driving one emitter instance over a sequence of recorded actions,
concatenating the emitted fragments in call order. -/
def processActions (ext : Ext) (fuel : Nat) : GenState → List AIC → GenState × List Frag
  | g, [] => (g, [])
  | g, a :: rest =>
    let step1 := generateAction ext fuel g a
    let step2 := processActions ext fuel step1.1 rest
    (step2.1, step1.2 ++ step2.2)

/-! ## Default stripping -/

/-- A JSON-like value as manipulated by `stripDefaults` (plain JS property
bags); `undef` models a property whose assigned value is `undefined`. -/
inductive JVal where
  | undef
  | null
  | boolean (b : Bool)
  | num (n : Int)
  | str (s : String)
  | arr (xs : List JVal)
  | obj (fields : List (String × JVal))

/-- Embedding of the revised `stripDefaults` over the entry list of an
object: null and undefined values, a zero `modifiers` mask, an empty
`framePath` array and nested objects that strip to empty are dropped;
arrays and primitives are kept verbatim; nested (non-array) objects are
stripped recursively. -/
def stripDefaults : List (String × JVal) → List (String × JVal)
  | [] => []
  | (k, v) :: rest =>
    match v with
    | .undef => stripDefaults rest
    | .null => stripDefaults rest
    | .num n =>
      if k == "modifiers" && n == 0 then stripDefaults rest
      else (k, .num n) :: stripDefaults rest
    | .arr xs =>
      if k == "framePath" && xs.isEmpty then stripDefaults rest
      else (k, .arr xs) :: stripDefaults rest
    | .obj fs =>
      let nested := stripDefaults fs
      if nested.isEmpty then stripDefaults rest
      else (k, .obj nested) :: stripDefaults rest
    | other => (k, other) :: stripDefaults rest

/-! ## Concrete external collaborators

The selector grammar, attribute-body parser and chain re-stringifier are
repository code outside the excerpt; concrete instances are modelled from
the specification for evaluating concrete claim inputs. The URL
parser and regex compiler model the host platform. -/

/-- Fuelled splitter on a non-empty separator (embedding of
`String.prototype.split` for the fixed separators used below). -/
def splitOnFuel (sep : List Char) : Nat → List Char → List Char → List (List Char)
  | _, acc, [] => [acc.reverse]
  | 0, acc, cs => [acc.reverse ++ cs]
  | fuel + 1, acc, c :: rest =>
    if sep ≠ [] && sep.isPrefixOf (c :: rest) then
      acc.reverse :: splitOnFuel sep fuel [] ((c :: rest).drop sep.length)
    else splitOnFuel sep fuel (c :: acc) rest

/-- Embedding of `s.split(sep)` for a non-empty literal separator. -/
def jsSplitOn (s sep : String) : List String :=
  (splitOnFuel sep.data s.data.length [] s.data).map fun cs => (⟨cs⟩ : String)

/-- Join with a separator (embedding of `Array.prototype.join`). -/
def joinSep (sep : String) : List String → String
  | [] => ""
  | [x] => x
  | x :: rest => x ++ sep ++ joinSep sep rest

/-- Split at the first `=`, when any. -/
def splitFirstEq (s : String) : Option (String × String) :=
  match s.data.findIdx? (fun c => c == '=') with
  | some i => some (⟨s.data.take i⟩, ⟨s.data.drop (i + 1)⟩)
  | none => none

/-- Modelled from the spec: the external selector grammar (`parseSelector`)
splits a raw chain on the chain separator into ordered `engine=body` parts,
recording the body text as the part source; a segment without an engine
separator does not parse. Capture syntax is not needed by the claims and
parsed chains carry no capture index here. -/
def specParseSel (raw : String) : Option ParsedSelector :=
  let segs := jsSplitOn raw " >> "
  match segs.mapM (fun seg =>
      (splitFirstEq seg).map fun nb => SelectorPart.mk nb.1 (.str nb.2) nb.2) with
  | some parts => some (.mk parts none)
  | none => none

/-- Value parsing for the modelled attribute-body parser: a JSON-quoted
string with an optional `i` (case-insensitive) or `s` (case-sensitive)
suffix, a regex literal, a numeral, a boolean token, or a bare token. -/
def specParseAttrValue (vtext : String) : Option (AttrVal × Bool) :=
  match vtext.data with
  | '"' :: rest =>
    match jsonStrLoop (rest.length + 1) rest with
    | some (body, remaining) =>
      match remaining with
      | [] => some (.str ⟨body⟩, true)
      | ['i'] => some (.str ⟨body⟩, false)
      | ['s'] => some (.str ⟨body⟩, true)
      | _ => none
    | none => none
  | '/' :: _ =>
    match regexLiteralSplit vtext with
    | some (p, f) => some (.regex p f, true)
    | none => none
  | _ =>
    if vtext ≠ "" && vtext.data.all (fun c => c.isDigit) then
      some (.num (digitsToNat vtext.data), true)
    else if vtext == "true" then some (.boolean true, true)
    else if vtext == "false" then some (.boolean false, true)
    else if vtext ≠ "" then some (.str vtext, true)
    else none

/-- Modelled from the spec: the attribute-body parser collaborator
(`parseAttributeSelector`) takes a bracketed attribute body and returns a
selector name plus an ordered attribute list (`name`, `value`, `op`,
`caseSensitive`); a bare attribute is a truthy flag. -/
def specParseAttr (body? : Option String) : Option AttrSel :=
  match body? with
  | none => none
  | some body =>
    match jsSplitOn body "[" with
    | [] => none
    | nm :: blocks =>
      let items := blocks.mapM fun blk =>
        if jsEndsWith blk "]" then
          let content := jsDropLast blk
          match splitFirstEq content with
          | none =>
            if content ≠ "" then
              some { name := content, op := "<truthy>",
                     value := AttrVal.str "", caseSensitive := true }
            else none
          | some (n, vtext) =>
            (specParseAttrValue vtext).map fun vc =>
              { name := n, op := "=", value := vc.1, caseSensitive := vc.2 }
        else none
      match items with
      | some attrs => some { name := nm, attributes := attrs }
      | none => none

/-- Modelled from the spec: the chain re-stringifier (`stringifySelector`)
renders each part as `engine=source` joined by the chain separator. -/
def specStringify (p : ParsedSelector) : String :=
  joinSep " >> " (p.parts.map fun part => part.name ++ "=" ++ part.source)

/-- Substring search (first index at which the pattern occurs). -/
def findSubIdx (cs pat : List Char) : Option Nat :=
  (List.range (cs.length + 1)).find? fun i => pat.isPrefixOf (cs.drop i)

/-- Embedding of the host WHATWG URL parser restricted to the http(s)
shapes the recorder produces:
`scheme://host[:port][/path][?query][#fragment]`. Anything else does not
parse (`none` models a thrown `TypeError`). -/
def jsUrlParse (s : String) : Option UrlRec :=
  match findSubIdx s.data "://".data with
  | none => none
  | some i =>
    let scheme : String := ⟨s.data.take i⟩
    let rest := s.data.drop (i + 3)
    if !(scheme == "http" || scheme == "https") then none
    else
      let hostport := rest.takeWhile fun c => !(c == '/' || c == '?' || c == '#')
      if hostport.isEmpty then none
      else
        let after := rest.drop hostport.length
        let path := after.takeWhile fun c => !(c == '?' || c == '#')
        let after2 := after.drop path.length
        let query := after2.takeWhile fun c => !(c == '#')
        let frag := after2.drop query.length
        some {
          protocol := scheme ++ ":",
          hostname := ⟨hostport.takeWhile fun c => !(c == ':')⟩,
          origin := scheme ++ "://" ++ (⟨hostport⟩ : String),
          pathname := if path.isEmpty then "/" else ⟨path⟩,
          search := if (⟨query⟩ : String) == "?" then "" else ⟨query⟩,
          hash := if (⟨frag⟩ : String) == "#" then "" else ⟨frag⟩ }

/-- The host regex compiler idealized: every pattern compiles, and source
and flags read back unchanged. The claims below never depend on a
particular compilation outcome. -/
def modelRegexCompile : RegexCompile := fun p f => some (p, f)

/-- The concrete collaborator bundle used to evaluate claims on concrete
inputs. -/
def specExt : Ext :=
  { parseSel := specParseSel, parseAttr := specParseAttr,
    stringifySel := specStringify, urlParse := jsUrlParse,
    regexCompile := modelRegexCompile }

/-! ## Theorems -/

/-- C9: default stripping is idempotent — one pass removes null/absent
fields, a zero `modifiers` mask, empty `framePath` arrays and emptied
nested objects, and a second pass over the result of `stripDefaults`
removes nothing further. -/
theorem c9_stripDefaults_idempotent (l : List (String × JVal)) :
    stripDefaults (stripDefaults l) = stripDefaults l := by
  induction l using stripDefaults.induct with
  | case1 => simp [stripDefaults]
  | case2 k rest ih => simpa [stripDefaults] using ih
  | case3 k rest ih => simpa [stripDefaults] using ih
  | case4 k rest n h ih => simpa [stripDefaults, h] using ih
  | case5 k rest n h ih => simp [stripDefaults, h]; exact ih
  | case6 k rest xs h ih => simpa [stripDefaults, h] using ih
  | case7 k rest xs h ih => simp [stripDefaults, h]; exact ih
  | case8 k rest fs nested h ihf ih => simpa [stripDefaults, h] using ih
  | case9 k rest fs nested h ihf ih => simp [stripDefaults, ihf, h]; exact ih
  | case10 k rest v hv ih => simp_all [stripDefaults]

theorem data_append (s t : String) : (s ++ t).data = s.data ++ t.data := by
  cases s; cases t; rfl

theorem startsWith_quote_exists {q : String} (h : jsStartsWith q "\"" = true) :
    ∃ t, q.data = '"' :: t := by
  unfold jsStartsWith at h
  cases hq : q.data with
  | nil => rw [hq] at h; simp [List.isPrefixOf] at h
  | cons c t =>
    rw [hq] at h
    simp [List.isPrefixOf] at h
    exact ⟨t, by rw [← h]⟩

theorem endsWith_append_one {q : String} {c : Char} (h : jsEndsWith q "\"" = true) :
    jsEndsWith (q ++ (⟨[c]⟩ : String)) ((⟨['"', c]⟩ : String)) = true := by
  unfold jsEndsWith at h ⊢
  simp only [data_append]
  simp [List.isPrefixOf] at h ⊢
  exact h

theorem endsWith_append_ne_quote {q : String} {c : Char} (hc : c ≠ '"') :
    jsEndsWith (q ++ (⟨[c]⟩ : String)) "\"" = false := by
  unfold jsEndsWith
  simp only [data_append]
  simp [List.isPrefixOf]
  exact fun hcontra => absurd hcontra.symm hc

theorem dropLast_append_one (q : String) (c : Char) :
    jsDropLast (q ++ (⟨[c]⟩ : String)) = q := by
  unfold jsDropLast
  simp only [data_append]
  cases q
  simp

theorem lastChar_append_one (q : String) (c : Char) :
    jsLastChar (q ++ (⟨[c]⟩ : String)) = some c := by
  unfold jsLastChar
  simp only [data_append]
  simp

theorem regexLiteralSplit_of_quote {s : String} (h : jsStartsWith s "\"" = true) :
    regexLiteralSplit s = none := by
  obtain ⟨t, ht⟩ := startsWith_quote_exists h
  unfold regexLiteralSplit
  rw [ht]
  rfl

theorem startsWith_of_append_one {q : String} {c : Char} (h : jsStartsWith q "\"" = true) :
    jsStartsWith (q ++ (⟨[c]⟩ : String)) "\"" = true := by
  obtain ⟨t, ht⟩ := startsWith_quote_exists h
  unfold jsStartsWith
  simp only [data_append]
  rw [ht]
  simp [List.isPrefixOf]

theorem append_one_ne_empty (q : String) (c : Char) : (q ++ (⟨[c]⟩ : String)) ≠ "" := by
  intro hcontra
  have : (q ++ (⟨[c]⟩ : String)).data = ("" : String).data := by rw [hcontra]
  rw [data_append] at this
  simp at this

/-- C4: a JSON-quoted string with a single trailing `s` suffix parses to an
exact case-sensitive matcher of the decoded string; with a trailing `i`
suffix it parses to a regex matcher carrying the case-insensitive flag whose
pattern is the decoded string with regex special characters escaped; a
malformed quoted string with either suffix falls through to the later rules
and lands on the plain-text fallback instead of raising. -/
theorem c4_parseTextSpec_quoted_suffix (rex : RegexCompile) (q d : String)
    (hstart : jsStartsWith q "\"" = true) (hend : jsEndsWith q "\"" = true)
    (hdec : jsonParseString q = some d) :
    parseTextSpec rex (some (q ++ "s")) = some (.exact d true) ∧
    parseTextSpec rex (some (q ++ "i")) = some (.regex (escapeRegex d) "i") ∧
    (∀ q2, jsStartsWith q2 "\"" = true → jsEndsWith q2 "\"" = true →
      jsonParseString q2 = none →
      parseTextSpec rex (some (q2 ++ "s")) = some (.plain (q2 ++ "s")) ∧
      parseTextSpec rex (some (q2 ++ "i")) = some (.plain (q2 ++ "i"))) := by
  refine ⟨?_, ?_, ?_⟩
  · have hne : (q ++ "s") ≠ "" := append_one_ne_empty q 's'
    have h1 : regexLiteralSplit (q ++ "s") = none :=
      regexLiteralSplit_of_quote (startsWith_of_append_one (c := 's') hstart)
    have h2 : jsEndsWith (q ++ "s") "\"s" = true := endsWith_append_one hend
    have hd : jsDropLast (q ++ "s") = q := dropLast_append_one q 's'
    have hl : jsLastChar (q ++ "s") = some 's' := lastChar_append_one q 's'
    simp [parseTextSpec, hne, h1, h2, hd, hl, hstart, hend, hdec]
  · have hne : (q ++ "i") ≠ "" := append_one_ne_empty q 'i'
    have h1 : regexLiteralSplit (q ++ "i") = none :=
      regexLiteralSplit_of_quote (startsWith_of_append_one (c := 'i') hstart)
    have h2 : jsEndsWith (q ++ "i") "\"i" = true := endsWith_append_one hend
    have hd : jsDropLast (q ++ "i") = q := dropLast_append_one q 'i'
    have hl : jsLastChar (q ++ "i") = some 'i' := lastChar_append_one q 'i'
    simp [parseTextSpec, hne, h1, h2, hd, hl, hstart, hend, hdec]
  · intro q2 h2start h2end h2dec
    constructor
    · have hne : (q2 ++ "s") ≠ "" := append_one_ne_empty q2 's'
      have h1 : regexLiteralSplit (q2 ++ "s") = none :=
        regexLiteralSplit_of_quote (startsWith_of_append_one (c := 's') h2start)
      have h2 : jsEndsWith (q2 ++ "s") "\"s" = true := endsWith_append_one h2end
      have hd : jsDropLast (q2 ++ "s") = q2 := dropLast_append_one q2 's'
      have h3 : jsEndsWith (q2 ++ "s") "\"" = false :=
        endsWith_append_ne_quote (by decide)
      simp [parseTextSpec, hne, h1, h2, h3, hd, h2start, h2end, h2dec]
    · have hne : (q2 ++ "i") ≠ "" := append_one_ne_empty q2 'i'
      have h1 : regexLiteralSplit (q2 ++ "i") = none :=
        regexLiteralSplit_of_quote (startsWith_of_append_one (c := 'i') h2start)
      have h2 : jsEndsWith (q2 ++ "i") "\"i" = true := endsWith_append_one h2end
      have hd : jsDropLast (q2 ++ "i") = q2 := dropLast_append_one q2 'i'
      have h3 : jsEndsWith (q2 ++ "i") "\"" = false :=
        endsWith_append_ne_quote (by decide)
      simp [parseTextSpec, hne, h1, h2, h3, hd, h2start, h2end, h2dec]

/-- Witness for C4 at the concrete quoted input for `Go`. -/
theorem c4_parseTextSpec_quoted_suffix_witness :
    parseTextSpec modelRegexCompile (some "\"Go\"s") = some (.exact "Go" true) ∧
    parseTextSpec modelRegexCompile (some "\"Go\"i") = some (.regex "Go" "i") ∧
    parseTextSpec modelRegexCompile (some "\"G\\qo\"s") = some (.plain "\"G\\qo\"s") := by
  have h := c4_parseTextSpec_quoted_suffix modelRegexCompile "\"Go\"" "Go"
    (by decide) (by decide) (by decide)
  refine ⟨?_, ?_, ?_⟩
  · have := h.1
    simpa using this
  · have := h.2.1
    simpa using this
  · have := (h.2.2 "\"G\\qo\"" (by decide) (by decide) (by decide)).1
    simpa using this

/-- C5 counterexample: the chain `css=.btn >> visible=False` has a `visible`
body that is not literally the string `false`, yet the mapped
`filters.visible` is `false` (the source lowercases and trims the body),
refuting the claim that every body other than the literal `"false"` maps to
`true`. -/
theorem c5_visible_counterexample :
    ((elementFromParsedSelector specExt 2 (some "css=.btn >> visible=False")).map
      (fun r => r.filters.map FiltersRec.visible)) = some (some (some false)) ∧
    ("False" : String) ≠ "false" := by
  exact ⟨by decide, by decide⟩

/-- C5 (amended): for a visible filter part after the base element, the
mapped `filters.visible` is false exactly when the body, trimmed and
lowercased, equals `false` (an absent body reads as `true`, hence visible);
every other body, including unparseable ones, maps to `true`. -/
theorem c5_visible_filter_amended (ext : Ext) (recur : Option String → Option PSResult)
    (raw vsrc : String) (p0 : SelectorPart) (b : PartBody)
    (hq : qualifies p0 = true) :
    (elementFromParsedCoreWith ext recur raw
        (.mk [p0, .mk "visible" b vsrc] none)).filters.map FiltersRec.visible =
      some (some (!(jsToLower (jsTrim (match b with
        | PartBody.nothing => "true"
        | bb => PartBody.coerceString bb)) == "false"))) := by
  have hq' := hq
  unfold qualifies at hq'
  simp only [Bool.and_eq_true, Bool.not_eq_true'] at hq'
  obtain ⟨⟨hne, hig⟩, hfl⟩ := hq'
  have hvis : qualifies (SelectorPart.mk "visible" b vsrc) = false := by
    unfold qualifies
    simp [SelectorPart.name, FILTER_ENGINES]
  have hscan : lastQualIdx [p0, SelectorPart.mk "visible" b vsrc] = some 0 := by
    simp [lastQualIdx, hvis, hq]
  have hig2 : p0.name ∉ IGNORE_ENGINES := by simpa using hig
  have hbase : resolveBaseIndex (.mk [p0, SelectorPart.mk "visible" b vsrc] none) = 0 := by
    unfold resolveBaseIndex scanStart
    simp [ParsedSelector.capture, ParsedSelector.parts, hscan, skipIgnoredAux, partNameAt, hig2]
  unfold elementFromParsedCoreWith
  rw [hbase]
  simp [ParsedSelector.parts, applyFilterPart, SelectorPart.name, SelectorPart.body,
    FiltersRec.withVisible, FiltersRec.empty, PSResult.filters, FiltersRec.visible]

/-- Witness for C5 (amended) at a concrete css base and explicit body. -/
theorem c5_visible_filter_amended_witness :
    (elementFromParsedCoreWith specExt (fun _ => none) "css=.btn >> visible=true"
        (.mk [.mk "css" (.str ".btn") ".btn", .mk "visible" (.str "true") "true"]
          none)).filters.map FiltersRec.visible = some (some true) := by
  have h := c5_visible_filter_amended specExt (fun _ => none) "css=.btn >> visible=true"
    "true" (.mk "css" (.str ".btn") ".btn") (.str "true") (by decide)
  simpa using h

/-- C2: building the structured selector is total. An absent raw selector
string maps to no result, a parse failure maps to no result, and the caller
`buildStructuredSelector` always produces an element for selector-bearing
actions: the mapped element when mapping succeeded, the fallback css
element holding the raw string after a parse failure, and the `UNKNOWN`
marker when no raw string exists. -/
theorem c2_structured_selector_total (ext : Ext) (fuel : Nat) :
    (elementFromParsedSelector ext (fuel + 1) none = none) ∧
    (∀ raw, raw ≠ "" → ext.parseSel raw = none →
      elementFromParsedSelector ext (fuel + 1) (some raw) = none) ∧
    (∀ aic : AIC, ∀ rawv, aic.action.selectorField = some rawv →
      (buildStructuredSelector ext (fuel + 1) aic).element.isSome = true) ∧
    (∀ aic : AIC, ∀ raw, aic.action.selectorField = some (some raw) → raw ≠ "" →
      ext.parseSel raw = none →
      (buildStructuredSelector ext (fuel + 1) aic).element = some { css := some raw }) ∧
    (∀ aic : AIC, aic.action.selectorField = some none →
      (buildStructuredSelector ext (fuel + 1) aic).element = some { css := some "UNKNOWN" }) := by
  have hnone : elementFromParsedSelector ext (fuel + 1) none = none := by
    simp [elementFromParsedSelector]
  have hfail : ∀ raw, raw ≠ "" → ext.parseSel raw = none →
      elementFromParsedSelector ext (fuel + 1) (some raw) = none := by
    intro raw hraw hparse
    simp [elementFromParsedSelector, hraw, hparse]
  refine ⟨hnone, hfail, ?_, ?_, ?_⟩
  · intro aic rawv h
    unfold buildStructuredSelector
    rw [h]
    cases hm : elementFromParsedSelector ext (fuel + 1) rawv with
    | none => simp [hm]
    | some m =>
      cases m with
      | mk el fl nn =>
        cases fl <;> cases nn <;>
          simp [hm, PSResult.filters, PSResult.nth, PSResult.element]
  · intro aic raw h hraw hparse
    unfold buildStructuredSelector
    rw [h]
    simp [hfail raw hraw hparse]
  · intro aic h
    unfold buildStructuredSelector
    rw [h]
    simp [hnone]

/-- Witness for C2: an unparseable raw string falls back to a css element
holding it, and a missing raw string falls back to the `UNKNOWN` marker. -/
theorem c2_structured_selector_total_witness :
    (buildStructuredSelector specExt 2 ⟨{}, .fill (some "%%%") "x" []⟩).element =
      some { css := some "%%%" } ∧
    (buildStructuredSelector specExt 2 ⟨{}, .fill none "x" []⟩).element =
      some { css := some "UNKNOWN" } := by
  constructor
  · exact (c2_structured_selector_total specExt 1).2.2.2.1
      ⟨{}, .fill (some "%%%") "x" []⟩ "%%%" (by decide) (by decide) (by rfl)
  · exact (c2_structured_selector_total specExt 1).2.2.2.2
      ⟨{}, .fill none "x" []⟩ (by decide)

theorem lastQualIdx_none {l : List SelectorPart} (h : ∀ q ∈ l, qualifies q = false) :
    lastQualIdx l = none := by
  induction l with
  | nil => rfl
  | cons p rest ih =>
    have hp := h p (by simp)
    have hr : ∀ q ∈ rest, qualifies q = false := fun q hq => h q (by simp [hq])
    simp [lastQualIdx, ih hr, hp]

theorem lastQualIdx_append {pre post : List SelectorPart} {base : SelectorPart}
    (hq : qualifies base = true) (hpost : ∀ q ∈ post, qualifies q = false) :
    lastQualIdx (pre ++ base :: post) = some pre.length := by
  induction pre with
  | nil => simp [lastQualIdx, lastQualIdx_none hpost, hq]
  | cons p pre ih => simp [lastQualIdx, ih]

/-- C1: without an explicit non-negative capture index the mapper selects
as base the last part that is in neither the filter-engine set nor the
ignore set; and on the concrete chain
`css=.btn >> internal:has-text="Go" >> nth=2` (parsed into its three
engine=body parts) the mapped element is the css part, `filters.hasText`
is the plain text matcher for `Go`, and `nth` is `2`. -/
theorem c1_base_index_skip (ext : Ext) (fuel : Nat)
    (pre post : List SelectorPart) (base : SelectorPart) (cap : Option Int)
    (hcap : ∀ c, cap = some c → c < 0)
    (hq : qualifies base = true)
    (hpost : ∀ q ∈ post, qualifies q = false) :
    resolveBaseIndex (.mk (pre ++ base :: post) cap) = (pre.length : Int) ∧
    (ext.parseSel "css=.btn >> internal:has-text=\"Go\" >> nth=2" =
        some (.mk [.mk "css" (.str ".btn") ".btn",
                   .mk "internal:has-text" (.str "\"Go\"") "\"Go\"",
                   .mk "nth" (.str "2") "2"] none) →
      elementFromParsedSelector ext (fuel + 1)
          (some "css=.btn >> internal:has-text=\"Go\" >> nth=2") =
        some (.mk { css := some ".btn" }
          (some (.mk (some (.plain "Go")) none none none none)) (some 2))) := by
  have hq' := hq
  unfold qualifies at hq'
  simp only [Bool.and_eq_true, Bool.not_eq_true'] at hq'
  obtain ⟨⟨hne, hig⟩, hfl⟩ := hq'
  constructor
  · have hsc : scanStart (pre ++ base :: post) = (pre.length : Int) := by
      simp [scanStart, lastQualIdx_append hq hpost]
    have hname : partNameAt (pre ++ base :: post) (pre.length : Int) = some base.name := by
      unfold partNameAt
      rw [if_neg (by omega)]
      simp [List.getElem_append_right (Nat.le_refl pre.length)]
    have hig2 : base.name ∉ IGNORE_ENGINES := by simpa using hig
    have hskip : ∀ f, skipIgnoredAux (pre ++ base :: post) (f + 1) (pre.length : Int) =
        (pre.length : Int) := by
      intro f
      simp [skipIgnoredAux, hname, hig2]
    unfold resolveBaseIndex
    cases cap with
    | none =>
      simp only [ParsedSelector.capture, ParsedSelector.parts]
      rw [hsc]
      simpa using hskip ((pre ++ base :: post).length)
    | some c =>
      have hc := hcap c rfl
      simp only [ParsedSelector.capture, ParsedSelector.parts]
      rw [if_neg (by omega)]
      rw [hsc]
      simpa using hskip ((pre ++ base :: post).length)
  · intro hp
    have hbase : resolveBaseIndex (.mk [SelectorPart.mk "css" (.str ".btn") ".btn",
        .mk "internal:has-text" (.str "\"Go\"") "\"Go\"",
        .mk "nth" (.str "2") "2"] none) = 0 := by decide
    have hpts : parseTextSpec ext.regexCompile (some "\"Go\"") = some (.plain "Go") := by
      have hrl : regexLiteralSplit "\"Go\"" = none := rfl
      have he1 : jsEndsWith "\"Go\"" "\"s" = false := rfl
      have he2 : jsEndsWith "\"Go\"" "\"i" = false := rfl
      have hs1 : jsStartsWith "\"Go\"" "\"" = true := rfl
      have he3 : jsEndsWith "\"Go\"" "\"" = true := rfl
      have hj : jsonParseString "\"Go\"" = some "Go" := rfl
      simp [parseTextSpec, hrl, he1, he2, hs1, he3, hj]
    have hnth : parseIntJS "2" = some 2 := by decide
    simp only [elementFromParsedSelector, hp]
    rw [if_neg (by decide)]
    unfold elementFromParsedCoreWith
    rw [hbase]
    simp only [ParsedSelector.parts, Int.toNat_zero, List.get?, List.drop, List.foldl]
    unfold elementFromBasePart applyFilterPart
    simp [SelectorPart.name, SelectorPart.body, SelectorPart.source, PartBody.asString,
      PartBody.coerceString, hpts, hnth, FiltersRec.withHasText, FiltersRec.empty]

/-- Witness for C1: the concrete chain instantiates the general base-index
property with an empty prefix and the two trailing filter parts, and the
modelled grammar parses the chain into exactly those parts. -/
theorem c1_base_index_skip_witness :
    resolveBaseIndex (.mk ([] ++ SelectorPart.mk "css" (.str ".btn") ".btn" ::
      [SelectorPart.mk "internal:has-text" (.str "\"Go\"") "\"Go\"",
       SelectorPart.mk "nth" (.str "2") "2"]) none) = 0 ∧
    elementFromParsedSelector specExt 2
        (some "css=.btn >> internal:has-text=\"Go\" >> nth=2") =
      some (.mk { css := some ".btn" }
        (some (.mk (some (.plain "Go")) none none none none)) (some 2)) := by
  have h := c1_base_index_skip specExt 1 []
    [SelectorPart.mk "internal:has-text" (.str "\"Go\"") "\"Go\"",
     SelectorPart.mk "nth" (.str "2") "2"]
    (SelectorPart.mk "css" (.str ".btn") ".btn") none
    (fun c hc => by cases hc) (by decide) (by decide)
  exact ⟨h.1, h.2 (by rfl)⟩

/-- C3 counterexample: for the role selector body `button[name="Submit"i]`
(case-insensitive string attribute), the mapped accessible-name matcher is
the plain text matcher `Submit` — case-insensitive substring semantics —
and not a compiled case-insensitive exact pattern as claimed. -/
theorem c3_role_name_counterexample :
    (elementFromParsedSelector specExt 1
        (some "internal:role=button[name=\"Submit\"i]")).map
      (fun r => (r.element.role, r.element.rname)) =
      some (some "button", some (.tm (.plain "Submit"))) ∧
    FVal.tm (TextMatcher.plain "Submit") ≠ FVal.tm (TextMatcher.regex "Submit" "i") := by
  exact ⟨by decide, by decide⟩

/-- C3 (amended): the mapped Element for a role part has the parsed role
name, and its accessible-name matcher follows the source rule — a
regex-valued attribute maps to a regex matcher, a case-sensitive string
attribute to an exact matcher, and any other value to a plain-text matcher;
in particular `button[name="Submit"i]` maps to role `button` with the
plain-text matcher `Submit`. -/
theorem c3_role_name_mapping (ext : Ext) (fuel : Nat)
    (body src roleName raw : String) (v : AttrVal) (cs : Bool)
    (hattr : ext.parseAttr (some body) =
      some ⟨roleName, [⟨"name", "=", v, cs⟩]⟩)
    (hparse : ext.parseSel raw =
      some (.mk [.mk "internal:role" (.str body) src] none))
    (hraw : raw ≠ "") :
    elementFromParsedSelector ext (fuel + 1) (some raw) =
      some (.mk { role := some roleName,
                  rname := some (.tm (match v with
                    | .regex p f => TextMatcher.regex p f
                    | vv =>
                      if cs then TextMatcher.exact (attrValCoerce vv) true
                      else TextMatcher.plain (attrValCoerce vv))) } none none) := by
  have hbase : resolveBaseIndex (.mk [SelectorPart.mk "internal:role" (.str body) src]
      none) = 0 := by
    unfold resolveBaseIndex scanStart
    have hqrole : qualifies (SelectorPart.mk "internal:role" (.str body) src) = true := by
      unfold qualifies
      simp [SelectorPart.name, FILTER_ENGINES, IGNORE_ENGINES]
    simp [ParsedSelector.capture, ParsedSelector.parts, lastQualIdx, hqrole,
      skipIgnoredAux, partNameAt, IGNORE_ENGINES, SelectorPart.name]
  simp only [elementFromParsedSelector, hparse]
  rw [if_neg (by simpa using hraw)]
  unfold elementFromParsedCoreWith
  rw [hbase]
  simp only [ParsedSelector.parts, Int.toNat_zero, List.get?, List.drop, List.foldl]
  unfold elementFromBasePart
  simp only [SelectorPart.name, SelectorPart.body, PartBody.asString, hattr]
  cases v <;> cases cs <;>
    simp [applyRoleAttr, attrValCoerce, PSResult.element]

/-- Witness for C3 (amended) at the concrete role body, through the
modelled grammar and attribute parser. -/
theorem c3_role_name_mapping_witness :
    elementFromParsedSelector specExt 1
        (some "internal:role=button[name=\"Submit\"i]") =
      some (.mk { role := some "button",
                  rname := some (.tm (.plain "Submit")) } none none) := by
  have h := c3_role_name_mapping specExt 0 "button[name=\"Submit\"i]"
    "button[name=\"Submit\"i]" "button" "internal:role=button[name=\"Submit\"i]"
    (.str "Submit") false (by rfl) (by rfl) (by decide)
  simpa [attrValCoerce] using h

/-- The disjunction of the seven discriminating-field checks of
`maybeMaskValue`, in source order. -/
def elementSecretMatch (el : Element) : Bool :=
  (match el.testId with | some v => secretTest v | none => false) ||
  (match el.label with | some f => matchTextF f | none => false) ||
  (match el.placeholder with | some f => matchTextF f | none => false) ||
  (el.role.isSome && secretTest (jsNameCoerce el.rname)) ||
  (match el.text with | some f => matchTextF f | none => false) ||
  (match el.css with | some s => secretTest s | none => false) ||
  (match el.xpath with | some s => secretTest s | none => false)

theorem maybeMaskValue_eq (el : Element) (t : String) :
    maybeMaskValue (some el) (some t) =
      if elementSecretMatch el then some MASKED else some t := by
  unfold maybeMaskValue elementSecretMatch
  by_cases h1 : (match el.testId with | some v => secretTest v | none => false) = true
  · simp [h1]
  by_cases h2 : (match el.label with | some f => matchTextF f | none => false) = true
  · simp [h1, h2]
  by_cases h3 : (match el.placeholder with | some f => matchTextF f | none => false) = true
  · simp [h1, h2, h3]
  by_cases h4 : (el.role.isSome && secretTest (jsNameCoerce el.rname)) = true
  · simp [h1, h2, h3, h4]
  by_cases h5 : (match el.text with | some f => matchTextF f | none => false) = true
  · simp [h1, h2, h3, h4, h5]
  by_cases h6 : (match el.css with | some s => secretTest s | none => false) = true
  · simp [h1, h2, h3, h4, h5, h6]
  by_cases h7 : (match el.xpath with | some s => secretTest s | none => false) = true
  · simp [h1, h2, h3, h4, h5, h6, h7]
  simp [h1, h2, h3, h4, h5, h6, h7]

/-- C7: a fill action emits exactly one step whose text field is the
masking of the recorded text against the resolved element: when the
element field `testId` matches the case-insensitive password pattern the
emitted text is the fixed masked placeholder token (likewise for the other
discriminating fields, checked in source order), and when no
discriminating field matches the text is kept verbatim. The recorded
action value itself is never modified (all mapping here is pure). -/
theorem c7_fill_secret_masking (ext : Ext) (fuel : Nat) (g : GenState)
    (fr : FrameCtx) (rawSel : Option String) (txt : String) (signals : List Signal) :
    ∃ s : StepRec,
      (generateAction ext fuel g ⟨fr, .fill rawSel txt signals⟩).2 = [Frag.stepItem s] ∧
      s.text = maybeMaskValue
        (buildStructuredSelector ext fuel ⟨fr, .fill rawSel txt signals⟩).element
        (some txt) ∧
      (∀ el t0,
        (buildStructuredSelector ext fuel ⟨fr, .fill rawSel txt signals⟩).element = some el →
        el.testId = some t0 → secretTest t0 = true → s.text = some MASKED) ∧
      (∀ el,
        (buildStructuredSelector ext fuel ⟨fr, .fill rawSel txt signals⟩).element = some el →
        elementSecretMatch el = false → s.text = some txt) := by
  refine ⟨_, rfl, rfl, ?_, ?_⟩
  · intro el t0 hel htid hsec
    rw [hel, maybeMaskValue_eq]
    have : elementSecretMatch el = true := by
      unfold elementSecretMatch
      rw [htid]
      simp [hsec]
    rw [this]
    rfl
  · intro el hel hno
    rw [hel, maybeMaskValue_eq, hno]
    rfl

/-- Witness for C7: a fill on the element with test id `login-password`
emits the masked placeholder token instead of `hunter2`. -/
theorem c7_fill_secret_masking_witness :
    ∃ s : StepRec,
      (generateAction specExt 2 {}
        ⟨{}, .fill (some "internal:testid=[data-testid=\"login-password\"s]")
          "hunter2" []⟩).2 = [Frag.stepItem s] ∧
      s.text = some MASKED := by
  obtain ⟨s, hfrag, _, hmask, _⟩ := c7_fill_secret_masking specExt 2 {} {}
    (some "internal:testid=[data-testid=\"login-password\"s]") "hunter2" []
  refine ⟨s, hfrag, ?_⟩
  exact hmask { testId := some "login-password" } "login-password" (by rfl) (by rfl)
    (by decide)

/-- C6: for retained (non-trivial) navigations, when the base URL is unset
the origin of the navigated URL becomes the base URL; once a base URL is
set, a URL with the same origin is emitted as its path + query + fragment
only, while cross-origin and unparseable URLs are emitted absolute and
unchanged. -/
theorem c6_navigate_url_rewrite (ext : Ext) (fuel : Nat) (g : GenState)
    (u : String) (hnt : isTrivialUrl u = false) :
    (∀ pu, isTruthyOpt g.metaBaseURL = false → ext.urlParse u = some pu →
      (generateAction ext fuel g ⟨{}, .navigate u⟩).1.metaBaseURL = some pu.origin) ∧
    (∀ b pb pu, g.metaBaseURL = some b → b ≠ "" → g.headerEmitted = true →
      ext.urlParse b = some pb → ext.urlParse u = some pu → pb.origin = pu.origin →
      ∃ s : StepRec, (generateAction ext fuel g ⟨{}, .navigate u⟩).2 = [Frag.stepItem s] ∧
        s.url = some (pu.pathname ++ pu.search ++ pu.hash)) ∧
    (∀ b pb pu, g.metaBaseURL = some b → b ≠ "" → g.headerEmitted = true →
      ext.urlParse b = some pb → ext.urlParse u = some pu → pb.origin ≠ pu.origin →
      ∃ s : StepRec, (generateAction ext fuel g ⟨{}, .navigate u⟩).2 = [Frag.stepItem s] ∧
        s.url = some u) ∧
    (∀ b, g.metaBaseURL = some b → b ≠ "" → g.headerEmitted = true →
      ext.urlParse u = none →
      ∃ s : StepRec, (generateAction ext fuel g ⟨{}, .navigate u⟩).2 = [Frag.stepItem s] ∧
        s.url = some u) := by
  have hu : u ≠ "" := by
    intro h
    rw [h] at hnt
    exact absurd hnt (by decide)
  refine ⟨?_, ?_, ?_, ?_⟩
  · intro pu hfalse hpu
    unfold generateAction
    simp only [hnt, Bool.false_eq_true, if_false, hfalse, hpu]
    by_cases hh : g.headerEmitted <;> simp [hh]
  · intro b pb pu hb hbne hh hpb hpu horig
    unfold generateAction
    have htr : isTruthyOpt g.metaBaseURL = true := by simp [hb, isTruthyOpt, hbne]
    simp only [hnt, Bool.false_eq_true, if_false, htr, if_true, hh]
    simp [hb, hpb, hpu, horig, isTruthyOpt, hbne, hu, finalizeStep]
  · intro b pb pu hb hbne hh hpb hpu horig
    unfold generateAction
    have htr : isTruthyOpt g.metaBaseURL = true := by simp [hb, isTruthyOpt, hbne]
    simp only [hnt, Bool.false_eq_true, if_false, htr, if_true, hh]
    simp [hb, hpb, hpu, horig, isTruthyOpt, hbne, hu, finalizeStep]
  · intro b hb hbne hh hpu
    unfold generateAction
    have htr : isTruthyOpt g.metaBaseURL = true := by simp [hb, isTruthyOpt, hbne]
    simp only [hnt, Bool.false_eq_true, if_false, htr, if_true, hh]
    simp [hb, hpu, isTruthyOpt, hbne, hu, finalizeStep]

/-- Witness for C6: with base URL `https://example.com`, navigating to
`https://example.com/a/b?x=1` emits the relative `/a/b?x=1`, and navigating
to `https://other.com/` emits the absolute URL unchanged. -/
theorem c6_navigate_url_rewrite_witness :
    (∃ s : StepRec,
      (generateAction specExt 1
        { headerEmitted := true, metaBaseURL := some "https://example.com" }
        ⟨{}, .navigate "https://example.com/a/b?x=1"⟩).2 = [Frag.stepItem s] ∧
      s.url = some "/a/b?x=1") ∧
    (∃ s : StepRec,
      (generateAction specExt 1
        { headerEmitted := true, metaBaseURL := some "https://example.com" }
        ⟨{}, .navigate "https://other.com/"⟩).2 = [Frag.stepItem s] ∧
      s.url = some "https://other.com/") := by
  constructor
  · obtain ⟨-, h2, -, -⟩ := c6_navigate_url_rewrite specExt 1
      { headerEmitted := true, metaBaseURL := some "https://example.com" }
      "https://example.com/a/b?x=1" (by decide)
    obtain ⟨s, hs, hurl⟩ := h2 "https://example.com"
      { protocol := "https:", hostname := "example.com",
        origin := "https://example.com", pathname := "/", search := "", hash := "" }
      { protocol := "https:", hostname := "example.com",
        origin := "https://example.com", pathname := "/a/b", search := "?x=1", hash := "" }
      rfl (by decide) rfl (by decide) (by decide) (by decide)
    exact ⟨s, hs, by simpa using hurl⟩
  · obtain ⟨-, -, h3, -⟩ := c6_navigate_url_rewrite specExt 1
      { headerEmitted := true, metaBaseURL := some "https://example.com" }
      "https://other.com/" (by decide)
    obtain ⟨s, hs, hurl⟩ := h3 "https://example.com"
      { protocol := "https:", hostname := "example.com",
        origin := "https://example.com", pathname := "/", search := "", hash := "" }
      { protocol := "https:", hostname := "other.com",
        origin := "https://other.com", pathname := "/", search := "", hash := "" }
      rfl (by decide) rfl (by decide) (by decide) (by decide)
    exact ⟨s, hs, hurl⟩

/-- A call whose action is a navigation to a trivial URL: the only kind of
call that produces an empty output fragment. -/
def TrivialNav (a : AIC) : Prop :=
  ∃ u, (a.action = .navigate u ∨ a.action = .openPage u) ∧ isTrivialUrl u = true

/-- Header fragments recognizer. -/
def Frag.isHeader : Frag → Bool
  | .headerBlock _ _ _ => true
  | .stepItem _ => false

theorem generateAction_trivial (ext : Ext) (fuel : Nat) (g : GenState) {a : AIC}
    (h : TrivialNav a) : generateAction ext fuel g a = (g, []) := by
  obtain ⟨u, hact, ht⟩ := h
  rcases hact with hact | hact <;>
  · unfold generateAction
    rw [hact]
    simp [ht]

theorem processActions_trivial (ext : Ext) (fuel : Nat) (g : GenState) {l : List AIC}
    (h : ∀ a ∈ l, TrivialNav a) : processActions ext fuel g l = (g, []) := by
  induction l generalizing g with
  | nil => rfl
  | cons a rest ih =>
    have ha := h a (by simp)
    have hr : ∀ x ∈ rest, TrivialNav x := fun x hx => h x (by simp [hx])
    unfold processActions
    rw [generateAction_trivial ext fuel g ha]
    simp [ih g hr]

theorem processActions_append (ext : Ext) (fuel : Nat) (g : GenState) (l1 l2 : List AIC) :
    processActions ext fuel g (l1 ++ l2) =
      ((processActions ext fuel (processActions ext fuel g l1).1 l2).1,
       (processActions ext fuel g l1).2 ++
         (processActions ext fuel (processActions ext fuel g l1).1 l2).2) := by
  induction l1 generalizing g with
  | nil => simp [processActions]
  | cons a rest ih =>
    simp only [List.cons_append, processActions, List.append_eq]
    rw [ih]
    simp

theorem generateAction_retained_nav (ext : Ext) (fuel : Nat) (g : GenState)
    (fr : FrameCtx) (u : String) (hg : g.headerEmitted = false)
    (hu : isTrivialUrl u = false) :
    ∃ g2 v n b s, generateAction ext fuel g ⟨fr, .navigate u⟩ =
      (g2, [Frag.headerBlock v n b, Frag.stepItem s]) ∧ g2.headerEmitted = true := by
  unfold generateAction
  simp only [hu, Bool.false_eq_true, if_false]
  by_cases hb : isTruthyOpt g.metaBaseURL = true <;> simp [hb, hg]

/-- C8 counterexample: after `generateHeader`, two calls of which exactly
one is retained (a trivial navigation followed by a `closePage`) yield a
single step fragment and no header block at all — the header is emitted
only by retained navigations, so the claimed "exactly one header block
followed by exactly one step entry" fails. -/
theorem c8_header_once_counterexample :
    generateHeader specExt false none {} = some ({} : GenState) ∧
    ((processActions specExt 1 {}
      [⟨{}, .navigate "about:blank"⟩, ⟨{}, .closePage⟩]).2.map Frag.isHeader) = [false] ∧
    ([false] : List Bool) ≠ [true, false] := by
  exact ⟨by decide, by decide, by decide⟩

/-- C8 (amended): the header block is written at most once, and exactly by
the first retained navigation: for any call sequence consisting of trivial
navigations plus exactly one retained navigation, the emitter (started with
the header flag clear) produces exactly one header block immediately
followed by exactly one step entry; trivial navigations produce empty
fragments, change no state, and never trigger the header. Retained
non-navigation actions emit their step without triggering the header. -/
theorem c8_header_once_amended (ext : Ext) (fuel : Nat) (g : GenState)
    (pre post : List AIC) (fr : FrameCtx) (u : String)
    (hg : g.headerEmitted = false)
    (hpre : ∀ a ∈ pre, TrivialNav a) (hpost : ∀ a ∈ post, TrivialNav a)
    (hu : isTrivialUrl u = false) :
    ∃ v n b s, (processActions ext fuel g
        (pre ++ ⟨fr, .navigate u⟩ :: post)).2 =
      [Frag.headerBlock v n b, Frag.stepItem s] := by
  obtain ⟨g2, v, n, b, s, hgen, hg2⟩ := generateAction_retained_nav ext fuel g fr u hg hu
  refine ⟨v, n, b, s, ?_⟩
  rw [processActions_append]
  rw [processActions_trivial ext fuel g hpre]
  have hcons : processActions ext fuel g (⟨fr, .navigate u⟩ :: post) =
      (g2, [Frag.headerBlock v n b, Frag.stepItem s]) := by
    unfold processActions
    rw [hgen]
    simp [processActions_trivial ext fuel g2 hpost]
  simp [hcons]

/-- Witness for C8 (amended): one trivial navigation, one retained
navigation, one trailing trivial navigation. -/
theorem c8_header_once_amended_witness :
    ∃ v n b s, (processActions specExt 1 {}
        ([⟨{}, .navigate "about:blank"⟩] ++ ⟨{}, .navigate "https://example.com/"⟩ ::
          [⟨{}, .navigate "data:text/html,x"⟩])).2 =
      [Frag.headerBlock v n b, Frag.stepItem s] := by
  refine c8_header_once_amended specExt 1 {} _ _ {} "https://example.com/" rfl ?_ ?_ (by decide)
  · intro a ha
    simp only [List.mem_singleton] at ha
    exact ⟨"about:blank", Or.inl (by rw [ha]), by decide⟩
  · intro a ha
    simp only [List.mem_singleton] at ha
    exact ⟨"data:text/html,x", Or.inl (by rw [ha]), by decide⟩

/-- C10 counterexample: the two in-repo generator variants disagree on the
raw chain `css=.btn >> visible=true` — the old variant does not treat
`visible` as a filter engine and degrades the element to the re-stringified
whole chain, while the revised variant keeps the css part as the base and
records a visible filter — so their `elementFromParsedSelector` results are
not equal for every raw selector string. -/
theorem c10_generators_not_equivalent_counterexample :
    (elementFromParsedSelectorOld specExt (some "css=.btn >> visible=true")).map
        (fun r => r.element.css) = some (some "css=.btn >> visible=true") ∧
    (elementFromParsedSelector specExt 2 (some "css=.btn >> visible=true")).map
        (fun r => r.element.css) = some (some ".btn") ∧
    elementFromParsedSelectorOld specExt (some "css=.btn >> visible=true") ≠
      elementFromParsedSelector specExt 2 (some "css=.btn >> visible=true") := by
  have h1 : (elementFromParsedSelectorOld specExt (some "css=.btn >> visible=true")).map
      (fun r => r.element.css) = some (some "css=.btn >> visible=true") := by decide
  have h2 : (elementFromParsedSelector specExt 2 (some "css=.btn >> visible=true")).map
      (fun r => r.element.css) = some (some ".btn") := by decide
  refine ⟨h1, h2, fun h => ?_⟩
  have h3 := congrArg (Option.map (fun r => PSResult.element r |>.css)) h
  rw [h1, h2] at h3
  exact absurd h3 (by decide)

/-- C10 (amended): the two variants are not behaviorally equivalent as
generators — their selector mappers disagree (see the counterexample), and
their action mapping differs further (filter-engine sets, role-name
handling, navigate URL rewriting, the assertChecked tag) — but their
TextMatcher parsers are behaviorally equivalent: for every host regex
engine and every input the two `parseTextSpec` functions return the same
result. -/
theorem c10_parseTextSpec_equivalent (rex : RegexCompile) (input? : Option String) :
    parseTextSpecOld rex input? = parseTextSpec rex input? := rfl

end Genfest
